import Mathlib

/-!
Shallow embedding of the cupy-release-tools repository slice:
  * `builder/setup_cuda_opt_lib.py` — the directory-tree merger
    (`merge_directory`, `_child`, `_install_library`);
  * `verifier/setup_cuda_runtime_headers.py` — CUDA runtime header setup;
  * `dist.py` — the build/verify pipeline controller
    (`build_linux`, `build_windows`, `verify_linux`, `verify_windows`,
    `_check_windows_environment`).

File-system trees are modelled as finite labelled trees with association-list
children (a real directory listing never contains duplicate names; the
well-formedness predicate `Entry.wf` captures that).  Machine effects
(subprocess calls, downloads, container runs) are parameters of type
`Except`.  Python's `try/finally` semantics — an exception raised by the
`finally` block supersedes the body's outcome — is modelled explicitly.
-/

namespace CupyReleaseTools

/-! ## File-system tree model -/

/-- A directory entry: a regular file (with abstract content) or a
directory with a finite list of named children, in listing order. -/
inductive Entry where
  | file (content : Nat)
  | dir (children : List (String × Entry))

/-- Errors raised by the file-system operations of
`builder/setup_cuda_opt_lib.py`. -/
inductive FsError where
  /-- `assert len(children) == 1` in `_child` failing. -/
  | assertionError
  /-- `NotADirectoryError` (iterating a file, or copying below a file). -/
  | notADirectory
  /-- `IsADirectoryError` (`shutil.copyfile` onto a directory). -/
  | isADirectory
  /-- The `NameError` raised by the unbound `dst_name` on line 55 of
  `setup_cuda_opt_lib.py` (the binding on line 51 is `dest_name`). -/
  | nameError
deriving Repr, DecidableEq

/-- First-match association-list lookup (directory listings, install maps). -/
def lookupKey {α : Type} (n : String) : List (String × α) → Option α
  | [] => none
  | (m, v) :: rest => if m = n then some v else lookupKey n rest

/-- Replace the first binding of `n` (if any) with value `v`. -/
def setKey {α : Type} (n : String) (v : α) : List (String × α) → List (String × α)
  | [] => []
  | (m, w) :: rest => if m = n then (m, v) :: rest else (m, w) :: setKey n v rest

/-- Overwrite the binding of `n` when present, append it otherwise;
the model of creating-or-overwriting a name inside a directory. -/
def writeKey {α : Type} (n : String) (v : α) (l : List (String × α)) :
    List (String × α) :=
  match lookupKey n l with
  | some _ => setKey n v l
  | none => l ++ [(n, v)]

mutual
/-- Size of a tree (for termination of the merge recursion). -/
def Entry.size : Entry → Nat
  | .file _ => 1
  | .dir ch => 1 + listSize ch

/-- Total size of a listing. -/
def listSize : List (String × Entry) → Nat
  | [] => 0
  | (_, e) :: rest => Entry.size e + listSize rest
end

mutual
/-- Well-formed tree: no directory listing repeats a name (true of every
on-disk directory, where the model's inputs come from). -/
def Entry.wf : Entry → Bool
  | .file _ => true
  | .dir ch => listWF ch

/-- Well-formed listing: pairwise-distinct names, well-formed entries. -/
def listWF : List (String × Entry) → Bool
  | [] => true
  | (n, e) :: rest =>
      rest.all (fun p => decide (p.1 ≠ n)) && Entry.wf e && listWF rest
end

/-- `shutil.copy2(srcfile, destpath / name)` where `destpath` currently holds
`cur`: copying a file of content `c` under `name` into the destination
directory.  When the destination name is itself a directory, `copy2` retargets
to `dest/name/name`; retargeting onto a directory raises `IsADirectoryError`;
copying below a file raises `NotADirectoryError`. -/
def copyFileInto (n : String) (c : Nat) : Entry → Except FsError Entry
  | .file _ => .error .notADirectory
  | .dir ch =>
    match lookupKey n ch with
    | none => .ok (.dir (ch ++ [(n, .file c)]))
    | some (.file _) => .ok (.dir (setKey n (.file c) ch))
    | some (.dir sub) =>
      match lookupKey n sub with
      | some (.dir _) => .error .isADirectory
      | some (.file _) =>
          .ok (.dir (setKey n (.dir (setKey n (.file c) sub)) ch))
      | none => .ok (.dir (setKey n (.dir (sub ++ [(n, .file c)])) ch))

/-- The `for f in files` loop of one `os.walk` step in `merge_directory`:
copy every regular file of the source listing, in listing order, into the
current destination entry. -/
def copyFiles : List (String × Entry) → Entry → Except FsError Entry
  | [], cur => .ok cur
  | (_, .dir _) :: rest, cur => copyFiles rest cur
  | (n, .file c) :: rest, cur =>
    match copyFileInto n c cur with
    | .error e => .error e
    | .ok cur' => copyFiles rest cur'

mutual
/-- `merge_directory(src, dst)` from `setup_cuda_opt_lib.py`, expressed on
the tree model.  `dst = none` means the destination path does not exist yet
(`os.walk` visits it first, and `destpath.mkdir()` creates it); a `dst` that
exists as a file is kept (`destpath.exists()` is true, so no `mkdir`), and
any attempt to copy into or below it fails.  `os.walk` is top-down: the
files of the current directory are copied first, then each subdirectory is
merged recursively, in listing order. -/
def mergeDirInto (src : List (String × Entry)) (dst : Option Entry) :
    Except FsError Entry :=
  let cur : Entry :=
    match dst with
    | none => .dir []
    | some e => e
  match copyFiles src cur with
  | .error e => .error e
  | .ok cur' => mergeSubdirs src cur'
termination_by 2 * listSize src + 1
decreasing_by all_goals simp [listSize, Entry.size]

/-- Recursive descent of `merge_directory` into the subdirectories of the
source listing. -/
def mergeSubdirs (src : List (String × Entry)) (cur : Entry) :
    Except FsError Entry :=
  match src with
  | [] => .ok cur
  | (_, .file _) :: rest => mergeSubdirs rest cur
  | (n, .dir ch) :: rest =>
    match cur with
    | .file _ => .error .notADirectory
    | .dir dch =>
      match mergeDirInto ch (lookupKey n dch) with
      | .error e => .error e
      | .ok sub => mergeSubdirs rest (.dir (writeKey n sub dch))
termination_by 2 * listSize src
decreasing_by all_goals simp [listSize, Entry.size] <;> omega
end

/-- A path (sequence of names) that exists in a tree; used to state that the
merge never deletes a pre-existing destination entry. -/
def hasPath : Entry → List String → Bool
  | _, [] => true
  | .file _, _ :: _ => false
  | .dir ch, n :: p =>
    match lookupKey n ch with
    | none => false
    | some e => hasPath e p

/-- The destination entry `n` is already in the state that copying a file
of content `c` under `n` produces, so `copyFileInto n c` returns the
destination unchanged: either `n` holds exactly that file, or `n` is a
directory holding exactly that file under `n` (the `copy2`
into-a-directory retarget). -/
def stableAt (n : String) (c : Nat) : Entry → Prop
  | .file _ => False
  | .dir ch =>
    lookupKey n ch = some (.file c) ∨
    ∃ sub, lookupKey n ch = some (.dir sub) ∧
      lookupKey n sub = some (.file c)

/-- The destination has, at `n`, a subtree that merging `ch` into once more
would leave unchanged. -/
def dirStableAt (n : String) (ch : List (String × Entry)) (cur : Entry) :
    Prop :=
  ∃ dch sub, cur = .dir dch ∧ lookupKey n dch = some sub ∧
    mergeDirInto ch (some sub) = .ok sub

/-! ## `_install_library` -/

/-- The `for child in src_dir.iterdir()` loop of `_install_library`, acting
on the destination directory's listing.  For each payload entry the mapped
destination name is `install_map.get(child.name, child.name)`; a directory
entry is merged into `dst_dir / dest_name`; a file entry evaluates
`dst_dir / dst_name` where `dst_name` is unbound (line 55 of the source;
the binding on line 51 is `dest_name`), so it raises `NameError` before
copying anything.  The pair returned is the destination listing as mutated
so far together with the error, if any. -/
def installLoop (installMap : List (String × String)) :
    List (String × Entry) → List (String × Entry) →
    List (String × Entry) × Option FsError
  | [], dst => (dst, none)
  | (n, e) :: rest, dst =>
    let destName := (lookupKey n installMap).getD n
    match e with
    | .dir ch =>
      match mergeDirInto ch (lookupKey destName dst) with
      | .error err => (dst, some err)
      | .ok v => installLoop installMap rest (writeKey destName v dst)
    | .file _ => (dst, some .nameError)

/-- `_install_library(name, src_dir, dst_dir, install_map)`.  The source
root is descended through the fixed `$CUDA_VERSION/$name/$LIB_VERSION`
convention: `_child` asserts that each version-scoped level has exactly one
child (`assert len(children) == 1`; iterating a file raises
`NotADirectoryError`); a missing `name` subdirectory is a normal skip.
Returns the final destination listing together with the error, if any
(`none` means the Python function returned normally). -/
def installLibrary (name : String) (srcRoot : Entry)
    (installMap : List (String × String)) (dst : List (String × Entry)) :
    List (String × Entry) × Option FsError :=
  match srcRoot with
  | .file _ => (dst, some .notADirectory)
  | .dir children =>
    match children with
    | [(_, cudaDir)] =>
      match cudaDir with
      | .file _ => (dst, none)
      | .dir cch =>
        match lookupKey name cch with
        | none => (dst, none)
        | some libDir =>
          match libDir with
          | .file _ => (dst, some .notADirectory)
          | .dir lch =>
            match lch with
            | [(_, payload)] =>
              match payload with
              | .file _ => (dst, some .notADirectory)
              | .dir entries => installLoop installMap entries dst
            | _ => (dst, some .assertionError)
    | _ => (dst, some .assertionError)

/-! ## The distribution pipeline (`dist.py`)

Each pipeline method of `Controller` is modelled as a function from the
outcomes of its external effects (subprocess calls, copies, downloads,
container runs, `shutil.rmtree`) to the run's overall outcome plus a trace
of the observable actions the run performed.  Creating a directory inside
the freshly made working directory (`os.mkdir`) is modelled as always
succeeding. -/

/-- Python exceptions escaping a pipeline run. -/
inductive PErr where
  | runtimeError
  | valueError
  | keyError
  | assertionError
  | osError
  | calledProcessError
deriving Repr, DecidableEq

/-- The `_wheel.json` metadata written by the build phase:
key `cuda`, plus an optional `cudnn` object `{version, filename}`. -/
structure WheelMetadata where
  cuda : String
  cudnn : Option (String × String)
deriving Repr, DecidableEq

/-- One entry of `WHEEL_LINUX_CONFIGS` (fields used by `build_linux`). -/
structure WheelLinuxConfig where
  kind : String
  image : String
  name : String
  /-- the `nccl` asset configuration, `none` when absent -/
  nccl : Option Unit
deriving DecidableEq

/-- External-effect outcomes consumed by `Controller.build_linux`. -/
structure LinuxBuildDeps where
  /-- `get_version_from_source_tree` -/
  getVersion : Except PErr Unit
  /-- `get_cudnn_record(cuda_version, 'Linux')`: `(cudnn_version, url, filename)` -/
  getCudnnRecord : Except PErr (String × String × String)
  /-- `shutil.copytree(source, workdir/cupy)` -/
  copySource : Except PErr Unit
  /-- writing `description.rst` -/
  writeDescription : Except PErr Unit
  /-- `shutil.copytree('builder/', docker_ctx)` -/
  copyBuilder : Except PErr Unit
  /-- `extract_nccl_archive` -/
  extractNccl : Except PErr Unit
  /-- `download_extract_cudnn_archive` -/
  downloadCudnn : Except PErr Unit
  /-- `_create_builder_linux` (docker build) -/
  createImage : Except PErr Unit
  /-- `_run_container` -/
  runContainer : Except PErr Unit
  /-- `shutil.copy2(asset_path, output_path)` -/
  copyAsset : Except PErr Unit
  /-- `shutil.rmtree(workdir)` -/
  rmtree : Except PErr Unit

/-- Observable actions of one `build_linux` run. -/
structure LinuxBuildTrace where
  workdirCreated : Bool := false
  ncclDirCreated : Bool := false
  ncclExtracted : Bool := false
  cudnnDirCreated : Bool := false
  cudnnDownloaded : Bool := false
  metadataWritten : Option WheelMetadata := none
  containerRun : Bool := false
  removalAttempted : Bool := false
deriving Repr, DecidableEq

/-- The `try` body of `build_linux` (everything between the
`tempfile.mkdtemp` call and the `finally` block). -/
def buildLinuxBody (deps : LinuxBuildDeps) (ncclConfig : Option Unit)
    (cudnnRecord : Option (String × String × String)) (isWheel : Bool)
    (cudaVersion : Option String) (t : LinuxBuildTrace) :
    Except PErr Unit × LinuxBuildTrace :=
  match deps.copySource with
  | .error e => (.error e, t)
  | .ok _ =>
  match deps.writeDescription with
  | .error e => (.error e, t)
  | .ok _ =>
  match deps.copyBuilder with
  | .error e => (.error e, t)
  | .ok _ =>
  let t := { t with ncclDirCreated := true }
  match (match ncclConfig with
         | some _ => (deps.extractNccl, { t with ncclExtracted := true })
         | none => (.ok (), t) : Except PErr Unit × LinuxBuildTrace) with
  | (.error e, t) => (.error e, t)
  | (.ok _, t) =>
  let t := { t with cudnnDirCreated := true }
  match (match cudnnRecord with
         | some _ => (deps.downloadCudnn, { t with cudnnDownloaded := true })
         | none => (.ok (), t) : Except PErr Unit × LinuxBuildTrace) with
  | (.error e, t) => (.error e, t)
  | (.ok _, t) =>
  let t := if isWheel then
      { t with metadataWritten := some {
          cuda := cudaVersion.getD "",
          cudnn := cudnnRecord.map (fun r => (r.1, r.2.2)) } }
    else t
  match deps.createImage with
  | .error e => (.error e, t)
  | .ok _ =>
  let t := { t with containerRun := true }
  match deps.runContainer with
  | .error e => (.error e, t)
  | .ok _ =>
  (deps.copyAsset, t)

/-- `Controller.build_linux(target, nccl_assets, cuda_version,
python_version, source, output)`.  `configs` is the
`WHEEL_LINUX_CONFIGS` table.  The `finally` block runs
`shutil.rmtree(workdir)` with no handler, so a removal failure supersedes
the body's outcome (Python `try/finally` semantics). -/
def buildLinux (target : String) (cudaVersion : Option String)
    (configs : String → Option WheelLinuxConfig) (deps : LinuxBuildDeps) :
    Except PErr Unit × LinuxBuildTrace :=
  let t0 : LinuxBuildTrace := {}
  match deps.getVersion with
  | .error e => (.error e, t0)
  | .ok _ =>
  -- target dispatch, before the working directory exists
  match (if target = "wheel-linux" then
      match cudaVersion with
      | none => .error .assertionError  -- assert cuda_version is not None
      | some cv =>
        match configs cv with
        | none => .error .keyError  -- WHEEL_LINUX_CONFIGS[cuda_version]
        | some cfg =>
          if cfg.kind = "cuda" then
            match deps.getCudnnRecord with
            | .error e => .error e
            | .ok rec => .ok (cfg.nccl, some rec, true)
          else if cfg.kind = "rocm" then
            .ok (none, none, true)
          else .error .assertionError  -- assert False
    else if target = "sdist" then
      match cudaVersion with
      | some _ => .error .assertionError  -- assert cuda_version is None
      | none => .ok (none, none, false)
    else .error .runtimeError  -- 'unknown target'
    : Except PErr (Option Unit × Option (String × String × String) × Bool)) with
  | .error e => (.error e, t0)
  | .ok (ncclConfig, cudnnRecord, isWheel) =>
  -- workdir = tempfile.mkdtemp(...); try: ... finally: shutil.rmtree(workdir)
  let t1 := { t0 with workdirCreated := true }
  let (bodyRes, t2) :=
    buildLinuxBody deps ncclConfig cudnnRecord isWheel cudaVersion t1
  let t3 := { t2 with removalAttempted := true }
  (match deps.rmtree with
   | .error e => .error e
   | .ok _ => bodyRes, t3)

/-! ## Windows build (`build_windows`, `_check_windows_environment`) -/

/-- One entry of `WHEEL_WINDOWS_CONFIGS` (fields used on this path).
`checkVersion` is the configuration-supplied predicate `check_version`
applied to the parsed system CUDA version. -/
structure WheelWindowsConfig where
  name : String
  libs : List String
  cudartLib : String
  checkVersion : Nat → Bool

/-- `str.startswith(prefix)` on the character sequences. -/
def strStartsWith (s pre : String) : Bool := pre.data.isPrefixOf s.data

/-- `Controller._check_windows_environment(cuda_version, python_version)`.
The platform must be Windows; a Python version mismatch is only logged
(`log('Note: Building wheel for Python {} using Python {}')`) and does not
fail; the system CUDA runtime must exist and satisfy the configuration's
`check_version` predicate.  `currentCuda` is the result of
`get_system_cuda_version(config['cudart_lib'])`. -/
def checkWindowsEnvironment (platform : String)
    (pythonVersion currentPython : String)
    (configs : String → Option WheelWindowsConfig) (cudaVersion : String)
    (currentCuda : Option Nat) : Except PErr Unit :=
  if ¬ strStartsWith platform "win32" then .error .runtimeError
  else
    -- python_version != current_python_version: only a logged note
    match configs cudaVersion with
    | none => .error .keyError  -- WHEEL_WINDOWS_CONFIGS[cuda_version]
    | some cfg =>
      match currentCuda with
      | none => .error .runtimeError
      | some v =>
        if cfg.checkVersion v then .ok () else .error .runtimeError

/-- External-effect outcomes consumed by `Controller.build_windows`. -/
structure WinBuildDeps where
  /-- `get_version_from_source_tree` -/
  getVersion : Except PErr Unit
  /-- `find_file_in_path(lib)` for each configured library -/
  findLib : String → Option String
  /-- `shutil.copytree(source, workdir/cupy)` -/
  copySource : Except PErr Unit
  /-- writing `description.rst` -/
  writeDescription : Except PErr Unit
  /-- `get_cudnn_record(cuda_version, 'Windows')` -/
  getCudnnRecord : Except PErr (String × String × String)
  /-- `download_extract_cudnn_archive` -/
  downloadCudnn : Except PErr Unit
  /-- `install_cudnn_windows` (mutates the host `$CUDA_PATH`) -/
  installCudnn : Except PErr Unit
  /-- writing `_wheel.json` -/
  writeMetadata : Except PErr Unit
  /-- the `builder/agent.py` subprocess -/
  runAgent : Except PErr Unit
  /-- `shutil.copy2(asset_path, output_path)` -/
  copyAsset : Except PErr Unit
  /-- `shutil.rmtree(workdir)` -/
  rmtree : Except PErr Unit

/-- Observable actions of one `build_windows` run. -/
structure WinBuildTrace where
  workdirCreated : Bool := false
  bodyStarted : Bool := false
  cudaPathMutated : Bool := false
  metadataWritten : Option WheelMetadata := none
  agentRun : Bool := false
  removalAttempted : Bool := false
deriving Repr, DecidableEq

/-- The `try` body of `build_windows`. -/
def buildWindowsBody (deps : WinBuildDeps) (cudaVersion : String)
    (t : WinBuildTrace) : Except PErr Unit × WinBuildTrace :=
  let t := { t with bodyStarted := true }
  match deps.copySource with
  | .error e => (.error e, t)
  | .ok _ =>
  match deps.writeDescription with
  | .error e => (.error e, t)
  | .ok _ =>
  match deps.getCudnnRecord with
  | .error e => (.error e, t)
  | .ok rec =>
  match deps.downloadCudnn with
  | .error e => (.error e, t)
  | .ok _ =>
  let t := { t with cudaPathMutated := true }
  match deps.installCudnn with
  | .error e => (.error e, t)
  | .ok _ =>
  let t := { t with metadataWritten := some {
      cuda := cudaVersion, cudnn := some (rec.1, rec.2.2) } }
  match deps.writeMetadata with
  | .error e => (.error e, t)
  | .ok _ =>
  let t := { t with agentRun := true }
  match deps.runAgent with
  | .error e => (.error e, t)
  | .ok _ =>
  (deps.copyAsset, t)

/-- `Controller.build_windows`.  The environment check runs first, before
any side effect; the `finally` block wraps `shutil.rmtree(workdir)` in
`try ... except OSError` and only logs a removal failure, so the outcome
is the body's outcome regardless of `rmtree`. -/
def buildWindows (platform : String) (pythonVersion currentPython : String)
    (configs : String → Option WheelWindowsConfig) (cudaVersion : String)
    (currentCuda : Option Nat) (target : String) (ncclAssets : Option Unit)
    (deps : WinBuildDeps) : Except PErr Unit × WinBuildTrace :=
  let t0 : WinBuildTrace := {}
  match checkWindowsEnvironment platform pythonVersion currentPython
      configs cudaVersion currentCuda with
  | .error e => (.error e, t0)
  | .ok _ =>
  if target ≠ "wheel-win" then (.error .valueError, t0)
  else match ncclAssets with
  | some _ => (.error .runtimeError, t0)  -- 'NCCL not supported on Windows'
  | none =>
  match deps.getVersion with
  | .error e => (.error e, t0)
  | .ok _ =>
  -- find_file_in_path for every configured library, still before workdir
  match configs cudaVersion with
  | none => (.error .keyError, t0)  -- WHEEL_WINDOWS_CONFIGS[cuda_version]
  | some cfg =>
  if cfg.libs.any (fun lib => (deps.findLib lib).isNone) then
    (.error .runtimeError, t0)  -- 'Library {} could not be found in PATH'
  else
  let t1 := { t0 with workdirCreated := true }
  let (bodyRes, t2) := buildWindowsBody deps cudaVersion t1
  let t3 := { t2 with removalAttempted := true }
  -- try: shutil.rmtree(workdir) except OSError: log(...)
  (bodyRes, t3)

/-! ## Linux verification (`verify_linux`, `_verify_linux`) -/

/-- External-effect outcomes consumed by `Controller._verify_linux` for a
single verification system. -/
structure VerifyDeps where
  /-- `shutil.copy2(dist, workdir)` -/
  copyDist : Except PErr Unit
  /-- copying the test directories -/
  copyTests : Except PErr Unit
  /-- `shutil.copytree('verifier/', docker_ctx)` -/
  copyVerifier : Except PErr Unit
  /-- `extract_nccl_archive` -/
  extractNccl : Except PErr Unit
  /-- `_create_verifier_linux` (template choice + docker build) -/
  createImage : Except PErr Unit
  /-- `_run_container` -/
  runContainer : Except PErr Unit
  /-- `shutil.rmtree(workdir)` -/
  rmtree : Except PErr Unit

/-- Observable actions of one `_verify_linux` invocation. -/
structure VerifyTrace where
  workdirCreated : Bool := false
  ncclExtracted : Bool := false
  /-- number of `_run_container` invocations performed -/
  containerRuns : Nat := 0
  removalAttempted : Bool := false
deriving Repr, DecidableEq

/-- The `try` body of `_verify_linux`. -/
def verifyLinuxBody (deps : VerifyDeps) (ncclConfig : Option Unit)
    (t : VerifyTrace) : Except PErr Unit × VerifyTrace :=
  match deps.copyDist with
  | .error e => (.error e, t)
  | .ok _ =>
  match deps.copyTests with
  | .error e => (.error e, t)
  | .ok _ =>
  match deps.copyVerifier with
  | .error e => (.error e, t)
  | .ok _ =>
  match (match ncclConfig with
         | some _ => (deps.extractNccl, { t with ncclExtracted := true })
         | none => (.ok (), t) : Except PErr Unit × VerifyTrace) with
  | (.error e, t) => (.error e, t)
  | (.ok _, t) =>
  match deps.createImage with
  | .error e => (.error e, t)
  | .ok _ =>
  let t := { t with containerRuns := t.containerRuns + 1 }
  (deps.runContainer, t)

/-- `Controller._verify_linux` for one system: the body inside
`try ... finally: shutil.rmtree(workdir)` with no handler, so a removal
failure supersedes the body's outcome. -/
def verifyLinuxOne (ncclConfig : Option Unit) (deps : VerifyDeps) :
    Except PErr Unit × VerifyTrace :=
  let t1 : VerifyTrace := { workdirCreated := true }
  let (bodyRes, t2) := verifyLinuxBody deps ncclConfig t1
  let t3 := { t2 with removalAttempted := true }
  (match deps.rmtree with
   | .error e => .error e
   | .ok _ => bodyRes, t3)

/-- The `for system in systems` loop of `Controller.verify_linux`:
one `_verify_linux` invocation per system, sequentially, in order; the
first exception propagates and stops the loop.  Returns the overall
outcome and the per-system traces of the invocations performed. -/
def verifyLinuxLoop (ncclConfig : Option Unit)
    (deps : String → VerifyDeps) :
    List String → Except PErr Unit × List (String × VerifyTrace)
  | [] => (.ok (), [])
  | s :: rest =>
    match verifyLinuxOne ncclConfig (deps s) with
    | (.error e, t) => (.error e, [(s, t)])
    | (.ok _, t) =>
      match verifyLinuxLoop ncclConfig deps rest with
      | (r, ts) => (r, (s, t) :: ts)

/-! ## Windows verification (`verify_windows`) -/

/-- External-effect outcomes consumed by `Controller.verify_windows`. -/
structure VWinDeps where
  copyDist : Except PErr Unit
  copyTests : Except PErr Unit
  /-- the `verifier/agent.py` subprocess -/
  runAgent : Except PErr Unit
  rmtree : Except PErr Unit

/-- Observable actions of one `verify_windows` run. -/
structure VWinTrace where
  workdirCreated : Bool := false
  agentRun : Bool := false
  removalAttempted : Bool := false
deriving Repr, DecidableEq

/-- `Controller.verify_windows`: environment check and argument checks
first; then the body inside `try ... finally: shutil.rmtree(workdir)` with
no handler, so a removal failure supersedes the body's outcome. -/
def verifyWindows (platform : String) (pythonVersion currentPython : String)
    (configs : String → Option WheelWindowsConfig) (cudaVersion : String)
    (currentCuda : Option Nat) (target : String) (ncclAssets : Option Unit)
    (deps : VWinDeps) : Except PErr Unit × VWinTrace :=
  let t0 : VWinTrace := {}
  match checkWindowsEnvironment platform pythonVersion currentPython
      configs cudaVersion currentCuda with
  | .error e => (.error e, t0)
  | .ok _ =>
  if target ≠ "wheel-win" then (.error .valueError, t0)
  else match ncclAssets with
  | some _ => (.error .runtimeError, t0)  -- 'NCCL not supported on Windows'
  | none =>
  let t1 := { t0 with workdirCreated := true }
  let (bodyRes, t2) :=
    (match deps.copyDist with
     | .error e => (.error e, t1)
     | .ok _ =>
       match deps.copyTests with
       | .error e => (.error e, t1)
       | .ok _ =>
         let t := { t1 with agentRun := true }
         (deps.runAgent, t) : Except PErr Unit × VWinTrace)
  let t3 := { t2 with removalAttempted := true }
  (match deps.rmtree with
   | .error e => .error e
   | .ok _ => bodyRes, t3)

/-! ## `verifier/setup_cuda_runtime_headers.py` -/

/-- The pip command line issued by `setup_cuda_runtime_headers.main`. -/
def runtimeHeadersPin (major minor : Nat) : String :=
  "nvidia-cuda-runtime-cu" ++ toString major ++ "==" ++
    toString major ++ "." ++ toString minor ++ ".*"

/-- `main()` of `verifier/setup_cuda_runtime_headers.py`:
return immediately on HIP; with the nvrtc version `(major, minor)`, return
for CUDA 11.x and 12.0/12.1, `assert False` for any other major, and
otherwise run `pip install --user nvidia-cuda-runtime-cu{major}=={major}.{minor}.*`
(`pipInstall` is the outcome of that `subprocess.run(..., check=True)`).
Returns the function's outcome paired with the pip pin invoked, if any. -/
def setupCudaRuntimeHeaders (isHip : Bool) (major minor : Nat)
    (pipInstall : String → Except PErr Unit) :
    Except PErr Unit × Option String :=
  if isHip then (.ok (), none)
  else if major = 11 then (.ok (), none)
  else if major = 12 then
    if minor < 2 then (.ok (), none)
    else
      (pipInstall (runtimeHeadersPin major minor),
       some (runtimeHeadersPin major minor))
  else (.error .assertionError, none)  -- assert False, 'Unsupported CUDA version'

/-! ## Concrete example inputs (used by witnesses and counterexamples) -/

/-- A `WHEEL_LINUX_CONFIGS`-style table with one CUDA and one ROCm entry. -/
def exLinuxConfigs : String → Option WheelLinuxConfig := fun v =>
  if v = "11.2" then
    some { kind := "cuda", image := "nvidia/cuda:11.2-devel-centos7",
           name := "cupy-cuda112", nccl := some () }
  else if v = "rocm-4.0" then
    some { kind := "rocm", image := "rocm/dev-centos7:4.0.1",
           name := "cupy-rocm-4-0", nccl := none }
  else none

/-- Linux build effects that all succeed. -/
def exLinuxDepsOk : LinuxBuildDeps :=
  { getVersion := .ok (), getCudnnRecord := .ok ("8.1.1", "u", "cudnn.tgz"),
    copySource := .ok (), writeDescription := .ok (), copyBuilder := .ok (),
    extractNccl := .ok (), downloadCudnn := .ok (), createImage := .ok (),
    runContainer := .ok (), copyAsset := .ok (), rmtree := .ok () }

/-- Linux build effects where only the cleanup (`shutil.rmtree`) fails. -/
def exLinuxDepsRmFail : LinuxBuildDeps :=
  { exLinuxDepsOk with rmtree := .error .osError }

/-- A `WHEEL_WINDOWS_CONFIGS`-style table with one entry whose
`check_version` accepts exactly the system version 112. -/
def exWinConfigs : String → Option WheelWindowsConfig := fun v =>
  if v = "11.2" then
    some { name := "cupy-cuda112", libs := ["cudnn64_8.dll"],
           cudartLib := "cudart64_110", checkVersion := fun x => x = 112 }
  else none

/-- Windows build effects that all succeed. -/
def exWinDepsOk : WinBuildDeps :=
  { getVersion := .ok (), findLib := fun _ => some "found",
    copySource := .ok (), writeDescription := .ok (),
    getCudnnRecord := .ok ("8.1.1", "u", "cudnn.zip"),
    downloadCudnn := .ok (), installCudnn := .ok (), writeMetadata := .ok (),
    runAgent := .ok (), copyAsset := .ok (), rmtree := .ok () }

/-- Per-system verification effects that all succeed. -/
def exVerifyDepsOk : VerifyDeps :=
  { copyDist := .ok (), copyTests := .ok (), copyVerifier := .ok (),
    extractNccl := .ok (), createImage := .ok (), runContainer := .ok (),
    rmtree := .ok () }

/-- Per-system verification effects where the container run fails. -/
def exVerifyDepsFail : VerifyDeps :=
  { exVerifyDepsOk with runContainer := .error .calledProcessError }

/-- Windows verification effects that all succeed. -/
def exVWinDepsOk : VWinDeps :=
  { copyDist := .ok (), copyTests := .ok (), runAgent := .ok (),
    rmtree := .ok () }

/-! # Theorems -/

/-! ## Association-list lemmas -/

theorem lookupKey_setKey_self {α : Type} {n : String} {v w : α}
    {l : List (String × α)} (h : lookupKey n l = some w) :
    lookupKey n (setKey n v l) = some v := by
  induction l with
  | nil => simp [lookupKey] at h
  | cons p rest ih =>
    obtain ⟨m, u⟩ := p
    by_cases hm : m = n
    · subst hm; simp [lookupKey, setKey]
    · simp [lookupKey, setKey, hm] at h ⊢
      exact ih h

theorem lookupKey_setKey_ne {α : Type} {m n : String} {v : α}
    {l : List (String × α)} (h : m ≠ n) :
    lookupKey m (setKey n v l) = lookupKey m l := by
  induction l with
  | nil => simp [setKey]
  | cons p rest ih =>
    obtain ⟨k, u⟩ := p
    by_cases hk : k = n
    · subst hk
      have hkm : ¬ (k = m) := fun he => h (he ▸ rfl)
      simp [lookupKey, setKey, hkm]
    · by_cases hkm : k = m
      · subst hkm; simp [lookupKey, setKey, hk]
      · simp [lookupKey, setKey, hk, hkm, ih]

theorem setKey_eq_of_lookup {α : Type} {n : String} {v : α}
    {l : List (String × α)} (h : lookupKey n l = some v) :
    setKey n v l = l := by
  induction l with
  | nil => simp [setKey]
  | cons p rest ih =>
    obtain ⟨m, u⟩ := p
    by_cases hm : m = n
    · subst hm
      simp [lookupKey] at h
      simp [setKey, h]
    · simp [lookupKey, hm] at h
      simp [setKey, hm, ih h]

theorem lookupKey_append_left {α : Type} {n : String} {v : α}
    {l₁ l₂ : List (String × α)} (h : lookupKey n l₁ = some v) :
    lookupKey n (l₁ ++ l₂) = some v := by
  induction l₁ with
  | nil => simp [lookupKey] at h
  | cons p rest ih =>
    obtain ⟨m, u⟩ := p
    by_cases hm : m = n
    · subst hm; simp [lookupKey] at h ⊢; exact h
    · simp [lookupKey, hm] at h ⊢; exact ih h

theorem lookupKey_append_right {α : Type} {n : String}
    {l₁ l₂ : List (String × α)} (h : lookupKey n l₁ = none) :
    lookupKey n (l₁ ++ l₂) = lookupKey n l₂ := by
  induction l₁ with
  | nil => simp
  | cons p rest ih =>
    obtain ⟨m, u⟩ := p
    by_cases hm : m = n
    · subst hm; simp [lookupKey] at h
    · simp [lookupKey, hm] at h ⊢; exact ih h

theorem lookupKey_writeKey_self {α : Type} {n : String} {v : α}
    {l : List (String × α)} : lookupKey n (writeKey n v l) = some v := by
  rcases hl : lookupKey n l with _ | w
  · simp [writeKey, hl, lookupKey_append_right hl, lookupKey]
  · simp [writeKey, hl, lookupKey_setKey_self hl]

theorem lookupKey_writeKey_ne {α : Type} {m n : String} {v : α}
    {l : List (String × α)} (h : m ≠ n) :
    lookupKey m (writeKey n v l) = lookupKey m l := by
  rcases hl : lookupKey n l with _ | w
  · rcases hm : lookupKey m l with _ | u
    · simp [writeKey, hl, lookupKey_append_right hm, lookupKey, Ne.symm h]
    · simp [writeKey, hl, lookupKey_append_left hm, hm]
  · simp [writeKey, hl, lookupKey_setKey_ne h]

/-! ## `copyFileInto` stability -/

/-- Stability only depends on the destination's entry at `n`. -/
theorem stableAt_congr {n : String} {c : Nat}
    {ch ch' : List (String × Entry)}
    (he : lookupKey n ch' = lookupKey n ch)
    (h : stableAt n c (.dir ch)) : stableAt n c (.dir ch') := by
  simp only [stableAt] at h ⊢
  rw [he]
  exact h

/-- A successful copy leaves the destination stable at the copied name. -/
theorem copyFileInto_stableAt {n : String} {c : Nat} {cur cur' : Entry}
    (h : copyFileInto n c cur = .ok cur') : stableAt n c cur' := by
  cases cur with
  | file c₀ => simp [copyFileInto] at h
  | dir ch =>
    rcases hl : lookupKey n ch with _ | e
    · simp [copyFileInto, hl] at h
      subst h
      simp only [stableAt]
      left
      rw [lookupKey_append_right hl]
      simp [lookupKey]
    · cases e with
      | file c₀ =>
        simp [copyFileInto, hl] at h
        subst h
        simp only [stableAt]
        left
        exact lookupKey_setKey_self hl
      | dir sub =>
        rcases hs : lookupKey n sub with _ | e₂
        · simp [copyFileInto, hl, hs] at h
          subst h
          simp only [stableAt]
          right
          refine ⟨sub ++ [(n, .file c)], lookupKey_setKey_self hl, ?_⟩
          rw [lookupKey_append_right hs]
          simp [lookupKey]
        · cases e₂ with
          | file c₁ =>
            simp [copyFileInto, hl, hs] at h
            subst h
            simp only [stableAt]
            right
            exact ⟨setKey n (.file c) sub, lookupKey_setKey_self hl,
              lookupKey_setKey_self hs⟩
          | dir sub₂ => simp [copyFileInto, hl, hs] at h

/-- Copying onto a stable destination is the identity. -/
theorem copyFileInto_of_stableAt {n : String} {c : Nat} {cur : Entry}
    (h : stableAt n c cur) : copyFileInto n c cur = .ok cur := by
  cases cur with
  | file c₀ => exact absurd h (by simp [stableAt])
  | dir ch =>
    simp only [stableAt] at h
    rcases h with hf | ⟨sub, hd, hs⟩
    · simp [copyFileInto, hf, setKey_eq_of_lookup hf]
    · simp [copyFileInto, hd, hs, setKey_eq_of_lookup hs,
        setKey_eq_of_lookup hd]

/-- A copy under a different name does not change the entry at `n`. -/
theorem copyFileInto_lookup_ne {m : String} {c' : Nat} {n : String}
    {ch : List (String × Entry)} {cur' : Entry}
    (h : copyFileInto m c' (.dir ch) = .ok cur') (hmn : n ≠ m) :
    ∃ ch', cur' = .dir ch' ∧ lookupKey n ch' = lookupKey n ch := by
  rcases hl : lookupKey m ch with _ | e
  · simp [copyFileInto, hl] at h
    subst h
    refine ⟨_, rfl, ?_⟩
    rcases hn : lookupKey n ch with _ | e
    · rw [lookupKey_append_right hn]
      simp [lookupKey, Ne.symm hmn]
    · rw [lookupKey_append_left hn]
  · cases e with
    | file c₀ =>
      simp [copyFileInto, hl] at h
      subst h
      exact ⟨_, rfl, lookupKey_setKey_ne hmn⟩
    | dir sub =>
      rcases hs : lookupKey m sub with _ | e₂
      · simp [copyFileInto, hl, hs] at h
        subst h
        exact ⟨_, rfl, lookupKey_setKey_ne hmn⟩
      · cases e₂ with
        | file c₁ =>
          simp [copyFileInto, hl, hs] at h
          subst h
          exact ⟨_, rfl, lookupKey_setKey_ne hmn⟩
        | dir sub₂ => simp [copyFileInto, hl, hs] at h

/-- Stability at `n` survives copies under other names. -/
theorem copyFileInto_preserves_stableAt {n : String} {c : Nat}
    {m : String} {c' : Nat} {cur cur' : Entry}
    (hst : stableAt n c cur) (hmn : n ≠ m)
    (h : copyFileInto m c' cur = .ok cur') : stableAt n c cur' := by
  cases cur with
  | file c₀ => exact absurd hst (by simp [stableAt])
  | dir ch =>
    obtain ⟨ch', rfl, he⟩ := copyFileInto_lookup_ne h hmn
    exact stableAt_congr he hst

/-! ## `listWF` consequences -/

theorem listWF_head_names {n : String} {e : Entry}
    {rest : List (String × Entry)}
    (h : listWF ((n, e) :: rest) = true) :
    ∀ p ∈ rest, p.1 ≠ n := by
  simp [listWF] at h
  intro p hp
  exact h.1.1 p.1 p.2 hp

theorem listWF_head_wf {n : String} {e : Entry}
    {rest : List (String × Entry)}
    (h : listWF ((n, e) :: rest) = true) : Entry.wf e = true := by
  simp [listWF] at h
  exact h.1.2

theorem listWF_tail {n : String} {e : Entry}
    {rest : List (String × Entry)}
    (h : listWF ((n, e) :: rest) = true) : listWF rest = true := by
  simp [listWF] at h
  exact h.2

theorem listWF_mem_wf {l : List (String × Entry)} {n : String} {e : Entry}
    (h : listWF l = true) (hm : (n, e) ∈ l) : Entry.wf e = true := by
  induction l with
  | nil => simp at hm
  | cons p rest ih =>
    obtain ⟨m, e₀⟩ := p
    rcases List.mem_cons.mp hm with he | ht
    · obtain ⟨rfl, rfl⟩ := Prod.mk.injEq .. ▸ he
      exact listWF_head_wf h
    · exact ih (listWF_tail h) ht

/-- In a well-formed listing a name determines its entry. -/
theorem listWF_name_inj {l : List (String × Entry)} {n : String}
    {e₁ e₂ : Entry} (h : listWF l = true)
    (h₁ : (n, e₁) ∈ l) (h₂ : (n, e₂) ∈ l) : e₁ = e₂ := by
  induction l with
  | nil => simp at h₁
  | cons p rest ih =>
    obtain ⟨m, e₀⟩ := p
    rcases List.mem_cons.mp h₁ with he₁ | ht₁ <;>
      rcases List.mem_cons.mp h₂ with he₂ | ht₂
    · rw [Prod.mk.injEq] at he₁ he₂
      rw [he₁.2, he₂.2]
    · rw [Prod.mk.injEq] at he₁
      exact absurd he₁.1 (listWF_head_names h _ ht₂)
    · rw [Prod.mk.injEq] at he₂
      exact absurd he₂.1 (listWF_head_names h _ ht₁)
    · exact ih (listWF_tail h) ht₁ ht₂

theorem listSize_mem_lt {l : List (String × Entry)} {n : String}
    {ch : List (String × Entry)} (hm : (n, Entry.dir ch) ∈ l) :
    listSize ch < listSize l := by
  induction l with
  | nil => simp at hm
  | cons p rest ih =>
    rcases List.mem_cons.mp hm with he | ht
    · subst he
      simp [listSize, Entry.size]
      omega
    · have := ih ht
      obtain ⟨m, e₀⟩ := p
      have hpos : 0 < Entry.size e₀ := by
        cases e₀ <;> simp [Entry.size]
      simp [listSize]
      omega

/-! ## `copyFiles` stability -/

/-- Copying a file list onto a destination already stable at every file is
the identity. -/
theorem copyFiles_of_stable {src : List (String × Entry)} {cur : Entry}
    (h : ∀ n c, (n, Entry.file c) ∈ src → stableAt n c cur) :
    copyFiles src cur = .ok cur := by
  induction src with
  | nil => simp [copyFiles]
  | cons p rest ih =>
    obtain ⟨n, e⟩ := p
    cases e with
    | dir ch =>
      simp only [copyFiles]
      exact ih fun n c hm => h n c (List.mem_cons_of_mem _ hm)
    | file c =>
      have hst := h n c (List.mem_cons_self _ _)
      simp only [copyFiles, copyFileInto_of_stableAt hst]
      exact ih fun n c hm => h n c (List.mem_cons_of_mem _ hm)

/-- Stability at `n` survives a whole file-copy pass whose source contains
no entry named `n`. -/
theorem copyFiles_preserves_stableAt {src : List (String × Entry)}
    {cur cur' : Entry} {n : String} {c : Nat}
    (hst : stableAt n c cur) (h : copyFiles src cur = .ok cur')
    (hne : ∀ p ∈ src, p.1 ≠ n) : stableAt n c cur' := by
  induction src generalizing cur with
  | nil => simp [copyFiles] at h; subst h; exact hst
  | cons p rest ih =>
    obtain ⟨m, e⟩ := p
    cases e with
    | dir ch =>
      simp only [copyFiles] at h
      exact ih hst h fun p hp => hne p (List.mem_cons_of_mem _ hp)
    | file c' =>
      simp only [copyFiles] at h
      rcases hc : copyFileInto m c' cur with e₀ | cur₁
      · rw [hc] at h; simp at h
      · rw [hc] at h
        have hs₁ : stableAt n c cur₁ :=
          copyFileInto_preserves_stableAt hst
            (Ne.symm (hne (m, .file c') (List.mem_cons_self _ _))) hc
        exact ih hs₁ h fun p hp => hne p (List.mem_cons_of_mem _ hp)

/-- After a successful file-copy pass over a well-formed source, the
destination is stable at every file of the source. -/
theorem copyFiles_establish {src : List (String × Entry)}
    {cur cur' : Entry} (h : copyFiles src cur = .ok cur')
    (hwf : listWF src = true) :
    ∀ n c, (n, Entry.file c) ∈ src → stableAt n c cur' := by
  induction src generalizing cur with
  | nil => intro n c hm; simp at hm
  | cons p rest ih =>
    obtain ⟨m, e⟩ := p
    intro n c hm
    cases e with
    | dir ch =>
      simp only [copyFiles] at h
      rcases List.mem_cons.mp hm with he | ht
      · simp at he
      · exact ih h (listWF_tail hwf) n c ht
    | file c₀ =>
      simp only [copyFiles] at h
      rcases hc : copyFileInto m c₀ cur with e₀ | cur₁
      · rw [hc] at h; simp at h
      · rw [hc] at h
        rcases List.mem_cons.mp hm with he | ht
        · rw [Prod.mk.injEq] at he
          obtain ⟨rfl, he₂⟩ := he
          obtain rfl : c₀ = c := by injection he₂.symm
          exact copyFiles_preserves_stableAt (copyFileInto_stableAt hc) h
            (listWF_head_names hwf)
        · exact ih h (listWF_tail hwf) n c ht

/-! ## `mergeSubdirs` lemmas -/

/-- Merging subdirectories does not change destination entries whose names
are not among the source's subdirectory names. -/
theorem mergeSubdirs_lookup_ne {src : List (String × Entry)}
    {dch : List (String × Entry)} {d : Entry} {n : String}
    (h : mergeSubdirs src (.dir dch) = .ok d)
    (hne : ∀ p ∈ src, ∀ ch₀, p.2 = Entry.dir ch₀ → p.1 ≠ n) :
    ∃ dch', d = .dir dch' ∧ lookupKey n dch' = lookupKey n dch := by
  induction src generalizing dch with
  | nil => simp [mergeSubdirs] at h; exact ⟨dch, h.symm, rfl⟩
  | cons p rest ih =>
    obtain ⟨m, e⟩ := p
    cases e with
    | file c =>
      simp only [mergeSubdirs] at h
      exact ih h fun p hp => hne p (List.mem_cons_of_mem _ hp)
    | dir ch₀ =>
      simp only [mergeSubdirs] at h
      rcases hM : mergeDirInto ch₀ (lookupKey m dch) with e₀ | sub
      · rw [hM] at h; simp at h
      · rw [hM] at h
        have hmn : m ≠ n :=
          hne (m, .dir ch₀) (List.mem_cons_self _ _) ch₀ rfl
        obtain ⟨dch', rfl, he⟩ :=
          ih h (fun p hp => hne p (List.mem_cons_of_mem _ hp))
        exact ⟨dch', rfl, he.trans (lookupKey_writeKey_ne (Ne.symm hmn))⟩

/-- File stability survives the subdirectory pass when no source
subdirectory is named `n`. -/
theorem mergeSubdirs_preserves_stableAt {src : List (String × Entry)}
    {cur d : Entry} {n : String} {c : Nat}
    (hst : stableAt n c cur) (h : mergeSubdirs src cur = .ok d)
    (hne : ∀ p ∈ src, ∀ ch₀, p.2 = Entry.dir ch₀ → p.1 ≠ n) :
    stableAt n c d := by
  cases cur with
  | file c₀ => exact absurd hst (by simp [stableAt])
  | dir dch =>
    obtain ⟨dch', rfl, he⟩ := mergeSubdirs_lookup_ne h hne
    exact stableAt_congr he hst

/-- Merging subdirectories onto a destination already stable at every
source subdirectory is the identity. -/
theorem mergeSubdirs_of_dirStable {src : List (String × Entry)}
    {cur : Entry}
    (h : ∀ n ch, (n, Entry.dir ch) ∈ src → dirStableAt n ch cur) :
    mergeSubdirs src cur = .ok cur := by
  induction src with
  | nil => simp [mergeSubdirs]
  | cons p rest ih =>
    obtain ⟨m, e⟩ := p
    cases e with
    | file c =>
      simp only [mergeSubdirs]
      exact ih fun n ch hm => h n ch (List.mem_cons_of_mem _ hm)
    | dir ch₀ =>
      obtain ⟨dch, sub, rfl, hlk, hmm⟩ :=
        h m ch₀ (List.mem_cons_self _ _)
      simp only [mergeSubdirs, hlk, hmm]
      rw [show writeKey m sub dch = dch by
        unfold writeKey; rw [hlk]; exact setKey_eq_of_lookup hlk]
      exact ih fun n ch hm => h n ch (List.mem_cons_of_mem _ hm)

/-- After a successful subdirectory pass over a well-formed source, the
destination is stable at every subdirectory of the source, provided merges
of the strictly smaller subtrees are idempotent. -/
theorem mergeSubdirs_establish {src : List (String × Entry)}
    {cur d : Entry}
    (IH : ∀ p ∈ src, ∀ (ch₀ : List (String × Entry)) (slot : Option Entry)
      (sub : Entry), p.2 = Entry.dir ch₀ → mergeDirInto ch₀ slot = .ok sub →
      mergeDirInto ch₀ (some sub) = .ok sub)
    (hwf : listWF src = true) (h : mergeSubdirs src cur = .ok d) :
    ∀ n ch, (n, Entry.dir ch) ∈ src → dirStableAt n ch d := by
  induction src generalizing cur with
  | nil => intro n ch hm; simp at hm
  | cons p rest ih =>
    obtain ⟨m, e⟩ := p
    intro n ch hm
    cases e with
    | file c =>
      simp only [mergeSubdirs] at h
      rcases List.mem_cons.mp hm with he | ht
      · simp at he
      · exact ih (fun p hp => IH p (List.mem_cons_of_mem _ hp))
          (listWF_tail hwf) h n ch ht
    | dir ch₀ =>
      cases cur with
      | file c₀ => simp [mergeSubdirs] at h
      | dir dch =>
        simp only [mergeSubdirs] at h
        rcases hM : mergeDirInto ch₀ (lookupKey m dch) with e₀ | sub
        · rw [hM] at h; simp at h
        · rw [hM] at h
          rcases List.mem_cons.mp hm with he | ht
          · rw [Prod.mk.injEq] at he
            obtain ⟨rfl, he₂⟩ := he
            obtain rfl : ch₀ = ch := by injection he₂.symm
            obtain ⟨dch', rfl, hlk⟩ :=
              mergeSubdirs_lookup_ne h
                (fun p hp ch₁ hch => listWF_head_names hwf p hp)
            refine ⟨dch', sub, rfl, ?_, ?_⟩
            · rw [hlk, lookupKey_writeKey_self]
            · exact IH (n, Entry.dir ch₀) (List.mem_cons_self _ _) ch₀
                (lookupKey n dch) sub rfl hM
          · exact ih (fun p hp => IH p (List.mem_cons_of_mem _ hp))
              (listWF_tail hwf) h n ch ht

/-! ## Merge idempotence -/

theorem mergeDirInto_idem_size :
    ∀ (N : Nat) (src : List (String × Entry)) (dst : Option Entry)
      (d : Entry),
      listSize src ≤ N → listWF src = true → mergeDirInto src dst = .ok d →
      mergeDirInto src (some d) = .ok d := by
  intro N
  induction N using Nat.strong_induction_on with
  | _ N IHN =>
    intro src dst d hsz hwf hmerge
    have key : ∀ cur : Entry,
        (match copyFiles src cur with
         | .error e => (Except.error e : Except FsError Entry)
         | .ok cur' => mergeSubdirs src cur') = .ok d →
        mergeDirInto src (some d) = .ok d := by
      intro cur h
      rcases hCF : copyFiles src cur with e | cur₁
      · rw [hCF] at h; simp at h
      · rw [hCF] at h
        have hIHp : ∀ p ∈ src, ∀ (ch₀ : List (String × Entry))
            (slot : Option Entry) (sub : Entry),
            p.2 = Entry.dir ch₀ → mergeDirInto ch₀ slot = .ok sub →
            mergeDirInto ch₀ (some sub) = .ok sub := by
          intro p hp ch₀ slot sub he hm
          obtain ⟨n₀, e₀⟩ := p
          simp at he
          subst he
          have hlt : listSize ch₀ < N :=
            lt_of_lt_of_le (listSize_mem_lt hp) hsz
          have hwf₀ : listWF ch₀ = true := by
            simpa [Entry.wf] using listWF_mem_wf hwf hp
          exact IHN (listSize ch₀) hlt ch₀ slot sub le_rfl hwf₀ hm
        have hdirstable := mergeSubdirs_establish hIHp hwf h
        have hfilestable : ∀ n c, (n, Entry.file c) ∈ src →
            stableAt n c d := by
          intro n c hm
          have hst₁ := copyFiles_establish hCF hwf n c hm
          apply mergeSubdirs_preserves_stableAt hst₁ h
          intro p hp ch₀ hch hpn
          have hpm : (n, Entry.dir ch₀) ∈ src := by
            have hpe : p = (n, Entry.dir ch₀) := by
              obtain ⟨p₁, p₂⟩ := p
              simp at hch hpn
              rw [hch, hpn]
            rwa [hpe] at hp
          have := listWF_name_inj hwf hpm hm
          simp at this
        have hCFd : copyFiles src d = .ok d :=
          copyFiles_of_stable hfilestable
        have hMSd : mergeSubdirs src d = .ok d :=
          mergeSubdirs_of_dirStable hdirstable
        simp only [mergeDirInto]
        rw [hCFd]
        exact hMSd
    cases dst with
    | none =>
      simp only [mergeDirInto] at hmerge
      exact key _ hmerge
    | some e₀ =>
      simp only [mergeDirInto] at hmerge
      exact key _ hmerge

/-! ## Path preservation (`merge` never deletes) -/

theorem copyFileInto_hasPath {m : String} {c' : Nat} {cur cur' : Entry}
    (h : copyFileInto m c' cur = .ok cur') :
    ∀ p, hasPath cur p = true → hasPath cur' p = true := by
  cases cur with
  | file c₀ => simp [copyFileInto] at h
  | dir ch =>
    intro p hp
    cases p with
    | nil => simp [hasPath]
    | cons x q =>
      rcases hx : lookupKey x ch with _ | e
      · simp [hasPath, hx] at hp
      · simp only [hasPath, hx] at hp
        by_cases hxm : x = m
        · subst hxm
          cases e with
          | file c₀ =>
            simp [copyFileInto, hx] at h
            subst h
            cases q with
            | nil => simp [hasPath, lookupKey_setKey_self hx]
            | cons y r => simp [hasPath] at hp
          | dir sub =>
            rcases hs : lookupKey x sub with _ | e₂
            · simp [copyFileInto, hx, hs] at h
              subst h
              simp only [hasPath, lookupKey_setKey_self hx]
              cases q with
              | nil => simp [hasPath]
              | cons y r =>
                simp only [hasPath] at hp ⊢
                rcases hy : lookupKey y sub with _ | e₃
                · rw [hy] at hp; simp at hp
                · rw [hy] at hp
                  rw [lookupKey_append_left hy]
                  exact hp
            · cases e₂ with
              | file c₁ =>
                simp [copyFileInto, hx, hs] at h
                subst h
                simp only [hasPath, lookupKey_setKey_self hx]
                cases q with
                | nil => simp [hasPath]
                | cons y r =>
                  simp only [hasPath] at hp ⊢
                  by_cases hym : y = x
                  · subst hym
                    rw [hs] at hp
                    rw [lookupKey_setKey_self hs]
                    cases r with
                    | nil => simp [hasPath]
                    | cons z t => simp [hasPath] at hp
                  · rw [lookupKey_setKey_ne hym]
                    exact hp
              | dir sub₂ => simp [copyFileInto, hx, hs] at h
        · obtain ⟨ch', rfl, he⟩ := copyFileInto_lookup_ne h hxm
          simp only [hasPath, he, hx]
          exact hp

theorem copyFiles_hasPath {src : List (String × Entry)} {cur cur' : Entry}
    (h : copyFiles src cur = .ok cur') :
    ∀ p, hasPath cur p = true → hasPath cur' p = true := by
  induction src generalizing cur with
  | nil =>
    simp [copyFiles] at h
    subst h
    exact fun p hp => hp
  | cons pe rest ih =>
    obtain ⟨m, e⟩ := pe
    cases e with
    | dir ch =>
      simp only [copyFiles] at h
      exact ih h
    | file c' =>
      simp only [copyFiles] at h
      rcases hc : copyFileInto m c' cur with e₀ | cur₁
      · rw [hc] at h; simp at h
      · rw [hc] at h
        exact fun p hp => ih h p (copyFileInto_hasPath hc p hp)

theorem merge_hasPath_size :
    ∀ (N : Nat) (src : List (String × Entry)), listSize src ≤ N →
      ((∀ (cur d : Entry), mergeSubdirs src cur = .ok d →
        ∀ p, hasPath cur p = true → hasPath d p = true) ∧
       (∀ (dst : Option Entry) (d : Entry), mergeDirInto src dst = .ok d →
        ∀ p, hasPath (dst.getD (.dir [])) p = true → hasPath d p = true)) := by
  intro N
  induction N using Nat.strong_induction_on with
  | _ N IHN =>
    intro src hsz
    have hMS : ∀ (cur d : Entry), mergeSubdirs src cur = .ok d →
        ∀ p, hasPath cur p = true → hasPath d p = true := by
      rcases src with _ | ⟨⟨m, e⟩, rest⟩
      · intro cur d h p hp
        simp [mergeSubdirs] at h
        subst h
        exact hp
      · intro cur d h p hp
        cases e with
        | file c =>
          simp only [mergeSubdirs] at h
          have hlt : listSize rest < N := by
            simp [listSize, Entry.size] at hsz
            omega
          exact (IHN (listSize rest) hlt rest le_rfl).1 cur d h p hp
        | dir ch₀ =>
          cases cur with
          | file c₀ => simp [mergeSubdirs] at h
          | dir dch =>
            simp only [mergeSubdirs] at h
            rcases hM : mergeDirInto ch₀ (lookupKey m dch) with e₀ | sub
            · rw [hM] at h; simp at h
            · rw [hM] at h
              have hlt₁ : listSize rest < N := by
                simp [listSize, Entry.size] at hsz
                omega
              have hlt₂ : listSize ch₀ < N := by
                simp [listSize, Entry.size] at hsz
                omega
              apply (IHN (listSize rest) hlt₁ rest le_rfl).1 _ d h p
              cases p with
              | nil => simp [hasPath]
              | cons x q =>
                rcases hx : lookupKey x dch with _ | e₁
                · simp [hasPath, hx] at hp
                · simp only [hasPath, hx] at hp
                  by_cases hxm : x = m
                  · subst hxm
                    simp only [hasPath, lookupKey_writeKey_self]
                    rw [hx] at hM
                    exact (IHN (listSize ch₀) hlt₂ ch₀ le_rfl).2
                      (some e₁) sub hM q hp
                  · simp only [hasPath, lookupKey_writeKey_ne hxm, hx]
                    exact hp
    refine ⟨hMS, ?_⟩
    intro dst d h p hp
    have key : ∀ cur : Entry,
        (match copyFiles src cur with
         | .error e => (Except.error e : Except FsError Entry)
         | .ok cur' => mergeSubdirs src cur') = .ok d →
        hasPath cur p = true → hasPath d p = true := by
      intro cur h hp
      rcases hCF : copyFiles src cur with e | cur₁
      · rw [hCF] at h; simp at h
      · rw [hCF] at h
        exact hMS cur₁ d h p (copyFiles_hasPath hCF p hp)
    cases dst with
    | none =>
      simp only [mergeDirInto] at h
      exact key _ h hp
    | some e₀ =>
      simp only [mergeDirInto] at h
      exact key _ h hp

/-- C4: for every (source, destination) pair on which `merge_directory`
succeeds, running the merge a second time returns exactly the same
destination tree (idempotence), and no path present in the original
destination is ever deleted.  The well-formedness hypothesis states that
the source listing has no duplicate names, which is true of every on-disk
directory. -/
theorem merge_idempotent_never_deletes
    (src : List (String × Entry)) (dst : Option Entry) (d : Entry)
    (hwf : listWF src = true) (h : mergeDirInto src dst = .ok d) :
    mergeDirInto src (some d) = .ok d ∧
    (∀ p, hasPath (dst.getD (.dir [])) p = true → hasPath d p = true) :=
  ⟨mergeDirInto_idem_size (listSize src) src dst d le_rfl hwf h,
   fun p hp => (merge_hasPath_size (listSize src) src le_rfl).2 dst d h p hp⟩

/-- Witness for C4 at a concrete merge: a source with one directory and
one file merged into a destination holding an unrelated file. -/
theorem merge_idempotent_never_deletes_witness :
    mergeDirInto
        [("lib", Entry.dir [("libfoo.so", Entry.file 1)]),
         ("VERSION", Entry.file 2)]
        (some (Entry.dir [("keep", Entry.file 9), ("VERSION", Entry.file 2),
          ("lib", Entry.dir [("libfoo.so", Entry.file 1)])]))
      = .ok (Entry.dir [("keep", Entry.file 9), ("VERSION", Entry.file 2),
          ("lib", Entry.dir [("libfoo.so", Entry.file 1)])]) ∧
    hasPath (Entry.dir [("keep", Entry.file 9), ("VERSION", Entry.file 2),
        ("lib", Entry.dir [("libfoo.so", Entry.file 1)])]) ["keep"]
      = true :=
  have h : mergeDirInto
      [("lib", Entry.dir [("libfoo.so", Entry.file 1)]),
       ("VERSION", Entry.file 2)]
      (some (Entry.dir [("keep", Entry.file 9)]))
      = .ok (Entry.dir [("keep", Entry.file 9), ("VERSION", Entry.file 2),
          ("lib", Entry.dir [("libfoo.so", Entry.file 1)])]) := by
    simp [mergeDirInto, mergeSubdirs, copyFiles, copyFileInto, lookupKey,
      writeKey, setKey]
  ⟨(merge_idempotent_never_deletes
      [("lib", Entry.dir [("libfoo.so", Entry.file 1)]),
       ("VERSION", Entry.file 2)]
      (some (Entry.dir [("keep", Entry.file 9)])) _ rfl h).1,
   (merge_idempotent_never_deletes
      [("lib", Entry.dir [("libfoo.so", Entry.file 1)]),
       ("VERSION", Entry.file 2)]
      (some (Entry.dir [("keep", Entry.file 9)])) _ rfl h).2
      ["keep"] rfl⟩

/-! ## Fresh-merge success (for `installLibrary` into an empty destination) -/

theorem lookupKey_mem {α : Type} {n : String} {e : α}
    {l : List (String × α)} (h : lookupKey n l = some e) : (n, e) ∈ l := by
  induction l with
  | nil => simp [lookupKey] at h
  | cons p rest ih =>
    obtain ⟨m, v⟩ := p
    by_cases hm : m = n
    · subst hm
      simp [lookupKey] at h
      subst h
      exact List.mem_cons_self _ _
    · simp [lookupKey, hm] at h
      exact List.mem_cons_of_mem _ (ih h)

theorem mem_setKey {α : Type} {n : String} {v : α} {p : String × α}
    {l : List (String × α)} (h : p ∈ setKey n v l) :
    p ∈ l ∨ p.2 = v := by
  induction l with
  | nil => simp [setKey] at h
  | cons q rest ih =>
    obtain ⟨m, w⟩ := q
    by_cases hm : m = n
    · subst hm
      simp [setKey] at h
      rcases h with rfl | h
      · right; rfl
      · left; exact List.mem_cons_of_mem _ h
    · simp [setKey, hm] at h
      rcases h with rfl | h
      · left; exact List.mem_cons_self _ _
      · rcases ih h with h | h
        · left; exact List.mem_cons_of_mem _ h
        · right; exact h

/-- Copying files into a destination directory whose entries are all
regular files always succeeds, keeps every entry a regular file, and
introduces no name that is neither an old name nor a source file name. -/
theorem copyFiles_all_files {src : List (String × Entry)} :
    ∀ {ch : List (String × Entry)},
    (∀ p ∈ ch, ∃ c, p.2 = Entry.file c) →
    ∃ ch', copyFiles src (.dir ch) = .ok (.dir ch') ∧
      (∀ p ∈ ch', ∃ c, p.2 = Entry.file c) ∧
      (∀ m, lookupKey m ch = none →
        (∀ c, (m, Entry.file c) ∉ src) → lookupKey m ch' = none) := by
  induction src with
  | nil =>
    intro ch hch
    exact ⟨ch, by simp [copyFiles], hch, fun m hm _ => hm⟩
  | cons pe rest ih =>
    obtain ⟨n, e⟩ := pe
    intro ch hch
    cases e with
    | dir ch₀ =>
      obtain ⟨ch', h1, h2, h3⟩ := ih hch
      refine ⟨ch', by simpa [copyFiles] using h1, h2, ?_⟩
      intro m hm hnot
      exact h3 m hm fun c hc => hnot c (List.mem_cons_of_mem _ hc)
    | file c =>
      rcases hl : lookupKey n ch with _ | e₁
      · have hch₂ : ∀ p ∈ ch ++ [(n, Entry.file c)],
            ∃ c', p.2 = Entry.file c' := by
          intro p hp
          rcases List.mem_append.mp hp with h | h
          · exact hch p h
          · simp at h
            rw [h]
            exact ⟨c, rfl⟩
        obtain ⟨ch', h1, h2, h3⟩ := ih hch₂
        refine ⟨ch', ?_, h2, ?_⟩
        · simp only [copyFiles, copyFileInto, hl]
          exact h1
        · intro m hm hnot
          have hmn : m ≠ n := by
            intro hEq
            subst hEq
            exact hnot c (List.mem_cons_self _ _)
          apply h3 m
          · rw [lookupKey_append_right hm]
            simp [lookupKey, Ne.symm hmn]
          · intro c' hc'
            exact hnot c' (List.mem_cons_of_mem _ hc')
      · obtain ⟨c₁, hc₁⟩ := hch (n, e₁) (lookupKey_mem hl)
        simp only at hc₁
        subst hc₁
        have hch₂ : ∀ p ∈ setKey n (Entry.file c) ch,
            ∃ c', p.2 = Entry.file c' := by
          intro p hp
          rcases mem_setKey hp with h | h
          · exact hch p h
          · exact ⟨c, h⟩
        obtain ⟨ch', h1, h2, h3⟩ := ih hch₂
        refine ⟨ch', ?_, h2, ?_⟩
        · simp only [copyFiles, copyFileInto, hl]
          exact h1
        · intro m hm hnot
          have hmn : m ≠ n := by
            intro hEq
            subst hEq
            rw [hm] at hl
            exact Option.noConfusion hl
          apply h3 m
          · rw [lookupKey_setKey_ne hmn]
            exact hm
          · intro c' hc'
            exact hnot c' (List.mem_cons_of_mem _ hc')

/-- Merging well-formed subdirectories whose names are absent from the
destination always succeeds, provided every strictly smaller well-formed
tree merges successfully into a fresh slot. -/
theorem mergeSubdirs_fresh {src : List (String × Entry)}
    (IH : ∀ p ∈ src, ∀ ch₀ : List (String × Entry),
      p.2 = Entry.dir ch₀ → listWF ch₀ = true →
      ∃ v, mergeDirInto ch₀ none = .ok v)
    (hwf : listWF src = true) :
    ∀ {dch : List (String × Entry)},
    (∀ p ∈ src, ∀ ch₀ : List (String × Entry), p.2 = Entry.dir ch₀ →
      lookupKey p.1 dch = none) →
    ∃ d, mergeSubdirs src (.dir dch) = .ok d := by
  induction src with
  | nil => exact fun {dch} _ => ⟨.dir dch, by simp [mergeSubdirs]⟩
  | cons pe rest ih =>
    obtain ⟨m, e⟩ := pe
    intro dch habs
    cases e with
    | file c =>
      obtain ⟨d, hd⟩ := ih (fun p hp => IH p (List.mem_cons_of_mem _ hp))
        (listWF_tail hwf)
        (fun p hp => habs p (List.mem_cons_of_mem _ hp))
      exact ⟨d, by simpa only [mergeSubdirs] using hd⟩
    | dir ch₀ =>
      have hm : lookupKey m dch = none :=
        habs (m, .dir ch₀) (List.mem_cons_self _ _) ch₀ rfl
      obtain ⟨v, hv⟩ := IH (m, .dir ch₀) (List.mem_cons_self _ _) ch₀ rfl
        (by simpa [Entry.wf] using listWF_head_wf hwf)
      have habs₂ : ∀ p ∈ rest, ∀ ch₁ : List (String × Entry),
          p.2 = Entry.dir ch₁ →
          lookupKey p.1 (writeKey m v dch) = none := by
        intro p hp ch₁ hch₁
        have hpne : p.1 ≠ m := listWF_head_names hwf p hp
        rw [lookupKey_writeKey_ne hpne]
        exact habs p (List.mem_cons_of_mem _ hp) ch₁ hch₁
      obtain ⟨d, hd⟩ := ih (fun p hp => IH p (List.mem_cons_of_mem _ hp))
        (listWF_tail hwf) habs₂
      refine ⟨d, ?_⟩
      simp only [mergeSubdirs, hm, hv]
      exact hd

/-- A well-formed tree always merges successfully into a fresh slot. -/
theorem mergeDirInto_fresh_size :
    ∀ (N : Nat) (src : List (String × Entry)), listSize src ≤ N →
      listWF src = true → ∃ d, mergeDirInto src none = .ok d := by
  intro N
  induction N using Nat.strong_induction_on with
  | _ N IHN =>
    intro src hsz hwf
    obtain ⟨ch', hCF, _, habs'⟩ :=
      @copyFiles_all_files src [] (by simp)
    have habs : ∀ p ∈ src, ∀ ch₀ : List (String × Entry),
        p.2 = Entry.dir ch₀ → lookupKey p.1 ch' = none := by
      intro p hp ch₀ hch₀
      apply habs' p.1 (by simp [lookupKey])
      intro c hc
      have hpm : (p.1, Entry.dir ch₀) ∈ src := by
        have : p = (p.1, Entry.dir ch₀) := by
          obtain ⟨p₁, p₂⟩ := p
          simp at hch₀
          rw [hch₀]
        rwa [this] at hp
      have := listWF_name_inj hwf hpm hc
      simp at this
    have hIH : ∀ p ∈ src, ∀ ch₀ : List (String × Entry),
        p.2 = Entry.dir ch₀ → listWF ch₀ = true →
        ∃ v, mergeDirInto ch₀ none = .ok v := by
      intro p hp ch₀ hch₀ hwf₀
      obtain ⟨p₁, p₂⟩ := p
      simp at hch₀
      subst hch₀
      have hlt : listSize ch₀ < N :=
        lt_of_lt_of_le (listSize_mem_lt hp) hsz
      exact IHN (listSize ch₀) hlt ch₀ le_rfl hwf₀
    obtain ⟨d, hd⟩ := mergeSubdirs_fresh hIH hwf habs
    refine ⟨d, ?_⟩
    simp only [mergeDirInto]
    rw [hCF]
    exact hd

/-- The `_install_library` payload loop succeeds when every payload entry
is a well-formed directory and the mapped destination names are pairwise
distinct and absent from the destination. -/
theorem installLoop_ok {m : List (String × String)} :
    ∀ {entries : List (String × Entry)} {dst : List (String × Entry)},
    (∀ p ∈ entries, ∃ ch : List (String × Entry),
      p.2 = Entry.dir ch ∧ listWF ch = true) →
    (∀ p ∈ entries, lookupKey ((lookupKey p.1 m).getD p.1) dst = none) →
    (entries.map (fun p => (lookupKey p.1 m).getD p.1)).Nodup →
    (installLoop m entries dst).2 = none := by
  intro entries
  induction entries with
  | nil => intro dst _ _ _; simp [installLoop]
  | cons pe rest ih =>
    obtain ⟨n, e⟩ := pe
    intro dst hdirs habs hnd
    obtain ⟨ch, he, hchwf⟩ := hdirs (n, e) (List.mem_cons_self _ _)
    simp only at he
    subst he
    have habs₀ : lookupKey ((lookupKey n m).getD n) dst = none :=
      habs (n, .dir ch) (List.mem_cons_self _ _)
    obtain ⟨v, hv⟩ :=
      mergeDirInto_fresh_size (listSize ch) ch le_rfl hchwf
    simp only [installLoop, habs₀, hv]
    rw [List.map_cons, List.nodup_cons] at hnd
    apply ih (fun p hp => hdirs p (List.mem_cons_of_mem _ hp)) ?_ hnd.2
    intro p hp
    have hne : (lookupKey p.1 m).getD p.1 ≠ (lookupKey n m).getD n := by
      intro hEq
      exact hnd.1 (hEq ▸ List.mem_map_of_mem _ hp)
    rw [lookupKey_writeKey_ne hne]
    exact habs p (List.mem_cons_of_mem _ hp)

/-- C2: the claim says a payload whose top-level entry is a regular file is
copied into `destRoot` under the mapped name and the operation completes
normally.  The code cannot do this: line 55 of
`builder/setup_cuda_opt_lib.py` reads `destfile = dst_dir / dst_name`, but
the name bound on line 51 is `dest_name`, so every file entry raises
`NameError`.  Evaluated here at a failing input: a vendor tree with unique
version candidates whose payload is the single regular file `LICENSE`. -/
theorem installLibrary_file_payload_raises_nameError :
    installLibrary "nccl"
      (.dir [("11.2", .dir [("nccl",
        .dir [("2.9.6", .dir [("LICENSE", .file 3)])])])])
      [("lib", "lib64"), ("include", "include")]
      [("existing", .file 7)]
      = ([("existing", .file 7)], some .nameError) := rfl

/-- C5 counterexample: the claim says every vendor tree with exactly one
candidate at each version-scoped level installs successfully.  This tree
has exactly one candidate at both levels, yet the install fails: its
payload holds a regular file, and the file branch of `_install_library`
raises `NameError` (the `dst_name` slip on line 55). -/
theorem installLibrary_unique_candidates_counterexample :
    installLibrary "cutensor"
      (.dir [("11.0", .dir [("cutensor",
        .dir [("1.3.0", .dir [("README", .file 0)])])])])
      [("lib", "lib64")] []
      = ([], some .nameError) := rfl

/-- C5 (amended): with exactly one candidate at each version-scoped level,
`installLibrary` into an empty destination succeeds whenever the payload's
top-level entries are well-formed directories with pairwise-distinct mapped
destination names (a payload containing a regular file instead crashes on
the unbound `dst_name`); with two or more candidates at either
version-scoped level it fails with an assertion error and the destination
is left completely unmodified. -/
theorem installLibrary_candidates
    (name : String) (m : List (String × String))
    (dst : List (String × Entry)) :
    (∀ (v lv : String) (cch entries : List (String × Entry)),
      lookupKey name cch = some (.dir [(lv, .dir entries)]) →
      (∀ p ∈ entries, ∃ ch : List (String × Entry),
        p.2 = Entry.dir ch ∧ listWF ch = true) →
      (entries.map (fun p => (lookupKey p.1 m).getD p.1)).Nodup →
      (installLibrary name (.dir [(v, .dir cch)]) m []).2 = none) ∧
    (∀ (c₁ c₂ : String × Entry) (rest : List (String × Entry)),
      installLibrary name (.dir (c₁ :: c₂ :: rest)) m dst
        = (dst, some .assertionError)) ∧
    (∀ (v : String) (cch : List (String × Entry)) (l₁ l₂ : String × Entry)
        (lrest : List (String × Entry)),
      lookupKey name cch = some (.dir (l₁ :: l₂ :: lrest)) →
      installLibrary name (.dir [(v, .dir cch)]) m dst
        = (dst, some .assertionError)) := by
  refine ⟨?_, ?_, ?_⟩
  · intro v lv cch entries hlk hdirs hnd
    simp only [installLibrary, hlk]
    exact installLoop_ok hdirs (fun p _ => by simp [lookupKey]) hnd
  · intro c₁ c₂ rest
    obtain ⟨n₁, e₁⟩ := c₁
    obtain ⟨n₂, e₂⟩ := c₂
    simp [installLibrary]
  · intro v cch l₁ l₂ lrest hlk
    obtain ⟨n₁, e₁⟩ := l₁
    obtain ⟨n₂, e₂⟩ := l₂
    simp [installLibrary, hlk]

/-- Witness for C5 (amended) at concrete vendor trees: a cuTENSOR payload
of two directories installs cleanly into an empty destination; two
candidates at the first or at the second version-scoped level abort with
the destination untouched. -/
theorem installLibrary_candidates_witness :
    (installLibrary "cutensor"
      (.dir [("11.4", .dir [("cutensor", .dir [("1.3.3",
        .dir [("lib", .dir [("libcutensor.so", .file 5)]),
              ("include", .dir [("cutensor.h", .file 6)])])])])])
      [("lib", "lib64"), ("include", "include")] []).2 = none ∧
    installLibrary "cutensor"
      (.dir [("10.2", .file 0), ("11.4", .file 1)]) [] [("keep", .file 1)]
      = ([("keep", .file 1)], some .assertionError) ∧
    installLibrary "cutensor"
      (.dir [("11.4", .dir [("cutensor",
        .dir [("1.0", .file 0), ("2.0", .file 1)])])]) [] []
      = ([], some .assertionError) :=
  ⟨(installLibrary_candidates "cutensor"
      [("lib", "lib64"), ("include", "include")] []).1 "11.4" "1.3.3"
      [("cutensor", .dir [("1.3.3",
        .dir [("lib", .dir [("libcutensor.so", .file 5)]),
              ("include", .dir [("cutensor.h", .file 6)])])])]
      [("lib", .dir [("libcutensor.so", .file 5)]),
       ("include", .dir [("cutensor.h", .file 6)])]
      rfl
      (by
        intro p hp
        rcases List.mem_cons.mp hp with h | h
        · exact ⟨[("libcutensor.so", .file 5)], by rw [h], rfl⟩
        · simp at h
          exact ⟨[("cutensor.h", .file 6)], by rw [h], rfl⟩)
      (by simp [lookupKey]),
   (installLibrary_candidates "cutensor" [] [("keep", .file 1)]).2.1
      ("10.2", .file 0) ("11.4", .file 1) [],
   (installLibrary_candidates "cutensor" [] []).2.2 "11.4"
      [("cutensor", .dir [("1.0", .file 0), ("2.0", .file 1)])]
      ("1.0", .file 0) ("2.0", .file 1) [] rfl⟩

/-- C6: a vendor tree whose single version-scoped top level exists but does
not contain the library-named subdirectory makes `installLibrary` return
normally (a skip, not a failure) with the destination untouched. -/
theorem installLibrary_skip_when_library_absent
    (v name : String) (cch : List (String × Entry))
    (m : List (String × String)) (dst : List (String × Entry))
    (h : lookupKey name cch = none) :
    installLibrary name (.dir [(v, .dir cch)]) m dst = (dst, none) := by
  simp [installLibrary, h]

/-- Witness for C6 at a concrete input. -/
theorem installLibrary_skip_when_library_absent_witness :
    installLibrary "cudnn"
      (.dir [("11.0", .dir [("cutensor", .dir [])])]) []
      [("keep", .file 1)]
      = ([("keep", .file 1)], none) :=
  installLibrary_skip_when_library_absent "11.0" "cudnn"
    [("cutensor", .dir [])] [] [("keep", .file 1)] rfl

/-- C9: an empty version-scoped level (zero children) fails the
`assert len(children) == 1` in `_child` — an assertion error, not the
normal "library unavailable" skip — at either of the two version-scoped
levels, with the destination untouched. -/
theorem installLibrary_empty_level_asserts
    (name : String) (m : List (String × String))
    (dst : List (String × Entry)) :
    installLibrary name (.dir []) m dst = (dst, some .assertionError) ∧
    (∀ (v : String) (cch : List (String × Entry)),
      lookupKey name cch = some (.dir []) →
      installLibrary name (.dir [(v, .dir cch)]) m dst
        = (dst, some .assertionError)) := by
  constructor
  · simp [installLibrary]
  · intro v cch h
    simp [installLibrary, h]

/-- Witness for C9 at a concrete input. -/
theorem installLibrary_empty_level_asserts_witness :
    installLibrary "cudnn" (.dir []) [] [] = ([], some .assertionError) ∧
    installLibrary "cudnn"
      (.dir [("11.0", .dir [("cudnn", .dir [])])]) [] []
      = ([], some .assertionError) :=
  ⟨(installLibrary_empty_level_asserts "cudnn" [] []).1,
   (installLibrary_empty_level_asserts "cudnn" [] []).2 "11.0"
     [("cudnn", .dir [])] rfl⟩

/-- C10: `setup_cuda_runtime_headers.main` returns without action on HIP,
on CUDA 11.x, and on CUDA 12.0/12.1; for CUDA 12.2+ it runs exactly
`pip install --user nvidia-cuda-runtime-cu12==12.{minor}.*`; any other
major version fails the assertion. -/
theorem setupCudaRuntimeHeaders_spec
    (pip : String → Except PErr Unit) (major minor : Nat) :
    setupCudaRuntimeHeaders true major minor pip = (.ok (), none) ∧
    setupCudaRuntimeHeaders false 11 minor pip = (.ok (), none) ∧
    (minor < 2 → setupCudaRuntimeHeaders false 12 minor pip = (.ok (), none)) ∧
    (2 ≤ minor → setupCudaRuntimeHeaders false 12 minor pip
      = (pip (runtimeHeadersPin 12 minor), some (runtimeHeadersPin 12 minor))) ∧
    (major ≠ 11 → major ≠ 12 →
      setupCudaRuntimeHeaders false major minor pip
        = (.error .assertionError, none)) := by
  refine ⟨rfl, rfl, ?_, ?_, ?_⟩
  · intro h
    simp [setupCudaRuntimeHeaders, h]
  · intro h
    simp [setupCudaRuntimeHeaders, Nat.not_lt.mpr h]
  · intro h11 h12
    simp [setupCudaRuntimeHeaders, h11, h12]

/-- A `_verify_linux` invocation that returns normally ran the container
exactly once. -/
theorem verifyLinuxOne_ok_containerRuns (ncfg : Option Unit) (d : VerifyDeps)
    (h : (verifyLinuxOne ncfg d).1 = .ok ()) :
    (verifyLinuxOne ncfg d).2.containerRuns = 1 := by
  rcases d with ⟨cd, ct, cv, en, ci, rc, rm⟩
  cases cd <;> cases ct <;> cases cv <;> cases ncfg <;> cases en <;>
    cases ci <;> cases rc <;> cases rm <;>
    simp_all [verifyLinuxOne, verifyLinuxBody]

/-- C8: `verify_linux` runs one container per configured system,
sequentially in the configured order; if every system verifies, every
system is visited exactly once; the first failing system's error becomes
the phase outcome and no later system is attempted. -/
theorem verifyLinux_sequential_fail_fast (ncfg : Option Unit) :
    (∀ (deps : String → VerifyDeps) (systems : List String),
      (∀ s ∈ systems, (verifyLinuxOne ncfg (deps s)).1 = .ok ()) →
      (verifyLinuxLoop ncfg deps systems).1 = .ok () ∧
      (verifyLinuxLoop ncfg deps systems).2.map Prod.fst = systems ∧
      (∀ p ∈ (verifyLinuxLoop ncfg deps systems).2,
        p.2.containerRuns = 1)) ∧
    (∀ (deps : String → VerifyDeps) (pre : List String) (s : String)
        (post : List String) (e : PErr),
      (∀ p ∈ pre, (verifyLinuxOne ncfg (deps p)).1 = .ok ()) →
      (verifyLinuxOne ncfg (deps s)).1 = .error e →
      (verifyLinuxLoop ncfg deps (pre ++ s :: post)).1 = .error e ∧
      (verifyLinuxLoop ncfg deps (pre ++ s :: post)).2.map Prod.fst
        = pre ++ [s]) := by
  constructor
  · intro deps systems
    induction systems with
    | nil => intro _; simp [verifyLinuxLoop]
    | cons a rest ih =>
      intro h
      have ha : (verifyLinuxOne ncfg (deps a)).1 = .ok () :=
        h a (List.mem_cons_self a rest)
      have hruns : (verifyLinuxOne ncfg (deps a)).2.containerRuns = 1 :=
        verifyLinuxOne_ok_containerRuns ncfg (deps a) ha
      rcases hE : verifyLinuxOne ncfg (deps a) with ⟨r1, t⟩
      rw [hE] at ha hruns
      subst ha
      obtain ⟨ih1, ih2, ih3⟩ := ih (fun s hs => h s (List.mem_cons_of_mem a hs))
      rcases hL : verifyLinuxLoop ncfg deps rest with ⟨r, ts⟩
      rw [hL] at ih1 ih2 ih3
      simp only [verifyLinuxLoop, hE, hL]
      refine ⟨ih1, by simpa using ih2, ?_⟩
      intro p hp
      rcases List.mem_cons.mp hp with hph | hpt
      · subst hph; exact hruns
      · exact ih3 p hpt
  · intro deps pre s post e
    induction pre with
    | nil =>
      intro _ hfail
      rcases hE : verifyLinuxOne ncfg (deps s) with ⟨r1, t⟩
      rw [hE] at hfail
      subst hfail
      simp [verifyLinuxLoop, hE]
    | cons a rest ih =>
      intro h hfail
      have ha : (verifyLinuxOne ncfg (deps a)).1 = .ok () :=
        h a (List.mem_cons_self a rest)
      rcases hE : verifyLinuxOne ncfg (deps a) with ⟨r1, t⟩
      rw [hE] at ha
      subst ha
      obtain ⟨ih1, ih2⟩ :=
        ih (fun p hp => h p (List.mem_cons_of_mem a hp)) hfail
      rcases hL : verifyLinuxLoop ncfg deps (rest ++ s :: post) with ⟨r, ts⟩
      simp [hL] at ih1 ih2
      simp [List.cons_append, verifyLinuxLoop, hE, hL, ih1, ih2]

/-- Witness for C8: two passing systems are each verified once in order;
with a failing middle system the error propagates and the third system is
never attempted. -/
theorem verifyLinux_sequential_fail_fast_witness :
    ((verifyLinuxLoop none (fun _ => exVerifyDepsOk) ["a", "b"]).1
        = .ok () ∧
      (verifyLinuxLoop none (fun _ => exVerifyDepsOk) ["a", "b"]).2.map
        Prod.fst = ["a", "b"] ∧
      (∀ p ∈ (verifyLinuxLoop none (fun _ => exVerifyDepsOk) ["a", "b"]).2,
        p.2.containerRuns = 1)) ∧
    ((verifyLinuxLoop none
        (fun s => if s = "b" then exVerifyDepsFail else exVerifyDepsOk)
        (["a"] ++ "b" :: ["c"])).1 = .error .calledProcessError ∧
      (verifyLinuxLoop none
        (fun s => if s = "b" then exVerifyDepsFail else exVerifyDepsOk)
        (["a"] ++ "b" :: ["c"])).2.map Prod.fst = ["a"] ++ ["b"]) :=
  ⟨(verifyLinux_sequential_fail_fast none).1 (fun _ => exVerifyDepsOk)
      ["a", "b"] (by intro s _; rfl),
   (verifyLinux_sequential_fail_fast none).2
      (fun s => if s = "b" then exVerifyDepsFail else exVerifyDepsOk)
      ["a"] "b" ["c"] .calledProcessError
      (by intro p hp; simp at hp; subst hp; rfl) (by rfl)⟩

/-- C7: a Linux wheel build whose configuration kind is `rocm` extracts no
NCCL archive and downloads no cuDNN archive, still creates both placeholder
directories, and still writes the wheel metadata with `cuda` set to the
requested version and no `cudnn` key. -/
theorem buildLinux_rocm_skips_nccl_cudnn
    (cv : String) (configs : String → Option WheelLinuxConfig)
    (deps : LinuxBuildDeps) (cfg : WheelLinuxConfig)
    (hc : configs cv = some cfg) (hk : cfg.kind = "rocm")
    (h1 : deps.getVersion = .ok ()) (h2 : deps.copySource = .ok ())
    (h3 : deps.writeDescription = .ok ()) (h4 : deps.copyBuilder = .ok ()) :
    (buildLinux "wheel-linux" (some cv) configs deps).2.ncclExtracted
        = false ∧
    (buildLinux "wheel-linux" (some cv) configs deps).2.cudnnDownloaded
        = false ∧
    (buildLinux "wheel-linux" (some cv) configs deps).2.ncclDirCreated
        = true ∧
    (buildLinux "wheel-linux" (some cv) configs deps).2.cudnnDirCreated
        = true ∧
    (buildLinux "wheel-linux" (some cv) configs deps).2.metadataWritten
        = some { cuda := cv, cudnn := none } := by
  cases hCI : deps.createImage <;> cases hRC : deps.runContainer <;>
    simp [buildLinux, buildLinuxBody, hc, hk, h1, h2, h3, h4, hCI, hRC]

/-- Witness for C7 at the concrete ROCm configuration. -/
theorem buildLinux_rocm_skips_nccl_cudnn_witness :
    (buildLinux "wheel-linux" (some "rocm-4.0") exLinuxConfigs
        exLinuxDepsOk).2.ncclExtracted = false ∧
    (buildLinux "wheel-linux" (some "rocm-4.0") exLinuxConfigs
        exLinuxDepsOk).2.cudnnDownloaded = false ∧
    (buildLinux "wheel-linux" (some "rocm-4.0") exLinuxConfigs
        exLinuxDepsOk).2.ncclDirCreated = true ∧
    (buildLinux "wheel-linux" (some "rocm-4.0") exLinuxConfigs
        exLinuxDepsOk).2.cudnnDirCreated = true ∧
    (buildLinux "wheel-linux" (some "rocm-4.0") exLinuxConfigs
        exLinuxDepsOk).2.metadataWritten
      = some { cuda := "rocm-4.0", cudnn := none } :=
  buildLinux_rocm_skips_nccl_cudnn "rocm-4.0" exLinuxConfigs exLinuxDepsOk
    { kind := "rocm", image := "rocm/dev-centos7:4.0.1",
      name := "cupy-rocm-4-0", nccl := none }
    rfl rfl rfl rfl rfl rfl

/-- C3 counterexample: the claim says a mismatch of either the python
version or the CUDA runtime version aborts the Windows build before any
state is mutated.  Here the requested python version (3.9.0) differs from
the host's (3.10.2) — `_check_windows_environment` only logs a note — and
the build runs to completion, mutating the host `$CUDA_PATH` and the
working directory on the way. -/
theorem buildWindows_python_mismatch_not_fatal :
    ("3.9.0" : String) ≠ "3.10.2" ∧
    buildWindows "win32" "3.9.0" "3.10.2" exWinConfigs "11.2" (some 112)
      "wheel-win" none exWinDepsOk
      = (.ok (), { workdirCreated := true, bodyStarted := true,
                   cudaPathMutated := true,
                   metadataWritten := some ⟨"11.2", some ("8.1.1", "cudnn.zip")⟩,
                   agentRun := true, removalAttempted := true }) :=
  ⟨by decide, rfl⟩

/-- C3 (amended): on Windows the build first verifies, before any side
effect, that it runs on a Windows platform and that the host CUDA runtime
exists and matches the requested CUDA version; failing any of these raises
and aborts the pipeline with no state mutated.  A python version mismatch
is only logged as a note and does not abort. -/
theorem buildWindows_cuda_precondition
    (platform py curPy : String)
    (configs : String → Option WheelWindowsConfig) (cv : String)
    (cur : Option Nat) (cfg : WheelWindowsConfig) :
    (¬ strStartsWith platform "win32" = true →
      checkWindowsEnvironment platform py curPy configs cv cur
        = .error .runtimeError) ∧
    (configs cv = some cfg → cur = none →
      checkWindowsEnvironment platform py curPy configs cv cur
        = .error .runtimeError ∨ ¬ strStartsWith platform "win32" = true) ∧
    (∀ v, configs cv = some cfg → cur = some v → cfg.checkVersion v = false →
      checkWindowsEnvironment platform py curPy configs cv cur
        = .error .runtimeError ∨ ¬ strStartsWith platform "win32" = true) ∧
    (∀ e target ncclAssets deps,
      checkWindowsEnvironment platform py curPy configs cv cur = .error e →
      buildWindows platform py curPy configs cv cur target ncclAssets deps
        = (.error e, {})) := by
  refine ⟨?_, ?_, ?_, ?_⟩
  · intro h
    simp [checkWindowsEnvironment, h]
  · intro hc hn
    by_cases hw : strStartsWith platform "win32" = true
    · left; simp [checkWindowsEnvironment, hw, hc, hn]
    · right; exact hw
  · intro v hc hv hck
    by_cases hw : strStartsWith platform "win32" = true
    · left; simp [checkWindowsEnvironment, hw, hc, hv, hck]
    · right; exact hw
  · intro e target ncclAssets deps h
    simp [buildWindows, h]

/-- Witness for C3 (amended) at concrete inputs: CUDA runtime missing, and
CUDA runtime version rejected by `check_version`, both abort the build with
nothing mutated. -/
theorem buildWindows_cuda_precondition_witness :
    (checkWindowsEnvironment "win32" "3.9.0" "3.9.0" exWinConfigs "11.2"
        none = .error .runtimeError ∨
      ¬ strStartsWith "win32" "win32" = true) ∧
    (checkWindowsEnvironment "win32" "3.9.0" "3.9.0" exWinConfigs "11.2"
        (some 90) = .error .runtimeError ∨
      ¬ strStartsWith "win32" "win32" = true) ∧
    buildWindows "linux" "3.9.0" "3.9.0" exWinConfigs "11.2" (some 112)
      "wheel-win" none exWinDepsOk = (.error .runtimeError, {}) :=
  ⟨(buildWindows_cuda_precondition "win32" "3.9.0" "3.9.0" exWinConfigs
      "11.2" none
      { name := "cupy-cuda112", libs := ["cudnn64_8.dll"],
        cudartLib := "cudart64_110", checkVersion := fun x => x = 112 }).2.1
      rfl rfl,
   (buildWindows_cuda_precondition "win32" "3.9.0" "3.9.0" exWinConfigs
      "11.2" (some 90)
      { name := "cupy-cuda112", libs := ["cudnn64_8.dll"],
        cudartLib := "cudart64_110", checkVersion := fun x => x = 112 }).2.2.1
      90 rfl rfl (by decide),
   (buildWindows_cuda_precondition "linux" "3.9.0" "3.9.0" exWinConfigs
      "11.2" (some 112)
      { name := "cupy-cuda112", libs := ["cudnn64_8.dll"],
        cudartLib := "cudart64_110", checkVersion := fun x => x = 112 }).2.2.2
      .runtimeError "wheel-win" none exWinDepsOk
      (by simp [checkWindowsEnvironment, strStartsWith])⟩

/-- C1 counterexample: the claim says that in every pipeline a failure of
the working-directory removal is logged and never becomes the pipeline's
outcome.  In `build_linux` the `finally` block calls `shutil.rmtree` with
no handler: here every build phase succeeds, only the cleanup fails, and
the run's outcome is exactly the cleanup's `OSError`. -/
theorem buildLinux_cleanup_failure_propagates :
    buildLinux "wheel-linux" (some "11.2") exLinuxConfigs exLinuxDepsRmFail
      = (.error .osError,
         { workdirCreated := true, ncclDirCreated := true,
           ncclExtracted := true, cudnnDirCreated := true,
           cudnnDownloaded := true,
           metadataWritten := some ⟨"11.2", some ("8.1.1", "cudnn.tgz")⟩,
           containerRun := true, removalAttempted := true }) := rfl

/-- C1 (amended): every pipeline run that creates the working directory
attempts its removal on every exit path; only the Windows build catches
the removal failure (its outcome is whatever the preceding phases
produced, for every cleanup result); in the Linux build and in both
verify pipelines a removal failure propagates and supersedes the phase
outcome. -/
theorem pipelines_cleanup_semantics :
    (∀ platform py curPy configs cv cur target nccl
        (deps : WinBuildDeps) (r : Except PErr Unit),
      buildWindows platform py curPy configs cv cur target nccl
          { deps with rmtree := r }
        = buildWindows platform py curPy configs cv cur target nccl deps ∧
      ((buildWindows platform py curPy configs cv cur target nccl
          deps).2.workdirCreated = true →
        (buildWindows platform py curPy configs cv cur target nccl
          deps).2.removalAttempted = true)) ∧
    (∀ target cv configs (deps : LinuxBuildDeps) (e : PErr),
      ((buildLinux target cv configs deps).2.workdirCreated = true →
        (buildLinux target cv configs deps).2.removalAttempted = true) ∧
      ((buildLinux target cv configs deps).2.workdirCreated = true →
        deps.rmtree = .error e →
        (buildLinux target cv configs deps).1 = .error e)) ∧
    (∀ ncfg (deps : VerifyDeps) (e : PErr),
      (verifyLinuxOne ncfg deps).2.removalAttempted = true ∧
      (deps.rmtree = .error e →
        (verifyLinuxOne ncfg deps).1 = .error e)) ∧
    (∀ platform py curPy configs cv cur target nccl
        (deps : VWinDeps) (e : PErr),
      ((verifyWindows platform py curPy configs cv cur target nccl
          deps).2.workdirCreated = true →
        (verifyWindows platform py curPy configs cv cur target nccl
          deps).2.removalAttempted = true) ∧
      ((verifyWindows platform py curPy configs cv cur target nccl
          deps).2.workdirCreated = true →
        deps.rmtree = .error e →
        (verifyWindows platform py curPy configs cv cur target nccl
          deps).1 = .error e)) := by
  refine ⟨?_, ?_, ?_, ?_⟩
  · intro platform py curPy configs cv cur target nccl deps r
    refine ⟨by cases deps; rfl, ?_⟩
    unfold buildWindows
    repeat' split
    all_goals intro h
    all_goals first | rfl | simp_all
  · intro target cv configs deps e
    constructor
    · unfold buildLinux
      repeat' split
      all_goals intro h
      all_goals first | rfl | simp_all
    · unfold buildLinux
      repeat' split
      all_goals intro h hrm
      all_goals first | (rw [hrm]) | simp_all
  · intro ncfg deps e
    constructor
    · rfl
    · intro hrm
      unfold verifyLinuxOne
      rw [hrm]
  · intro platform py curPy configs cv cur target nccl deps e
    constructor
    · unfold verifyWindows
      repeat' split
      all_goals intro h
      all_goals first | rfl | simp_all
    · unfold verifyWindows
      repeat' split
      all_goals intro h hrm
      all_goals first | (rw [hrm]) | simp_all

/-- Witness for C1 (amended) at concrete inputs. -/
theorem pipelines_cleanup_semantics_witness :
    (buildWindows "win32" "3.9.0" "3.9.0" exWinConfigs "11.2" (some 112)
        "wheel-win" none { exWinDepsOk with rmtree := .error .osError }
      = buildWindows "win32" "3.9.0" "3.9.0" exWinConfigs "11.2" (some 112)
        "wheel-win" none exWinDepsOk) ∧
    ((buildLinux "wheel-linux" (some "11.2") exLinuxConfigs
        exLinuxDepsRmFail).1 = .error .osError) ∧
    ((verifyLinuxOne none
        { exVerifyDepsOk with rmtree := .error .osError }).1
      = .error .osError) :=
  ⟨((pipelines_cleanup_semantics).1 "win32" "3.9.0" "3.9.0" exWinConfigs
      "11.2" (some 112) "wheel-win" none exWinDepsOk
      (.error .osError)).1,
   ((pipelines_cleanup_semantics).2.1 "wheel-linux" (some "11.2")
      exLinuxConfigs exLinuxDepsRmFail .osError).2 (by rfl) (by rfl),
   ((pipelines_cleanup_semantics).2.2.1 none
      { exVerifyDepsOk with rmtree := .error .osError } .osError).2
      (by rfl)⟩

/-- Witness for C10 at concrete versions (11.8, 12.1, 12.2, 13.0, HIP). -/
theorem setupCudaRuntimeHeaders_spec_witness :
    setupCudaRuntimeHeaders true 12 4 (fun _ => .ok ()) = (.ok (), none) ∧
    setupCudaRuntimeHeaders false 11 8 (fun _ => .ok ()) = (.ok (), none) ∧
    setupCudaRuntimeHeaders false 12 1 (fun _ => .ok ()) = (.ok (), none) ∧
    setupCudaRuntimeHeaders false 12 2 (fun _ => .ok ())
      = (.ok (), some "nvidia-cuda-runtime-cu12==12.2.*") ∧
    setupCudaRuntimeHeaders false 13 0 (fun _ => .ok ())
      = (.error .assertionError, none) :=
  ⟨(setupCudaRuntimeHeaders_spec (fun _ => .ok ()) 12 4).1,
   (setupCudaRuntimeHeaders_spec (fun _ => .ok ()) 11 8).2.1,
   (setupCudaRuntimeHeaders_spec (fun _ => .ok ()) 12 1).2.2.1 (by decide),
   ((setupCudaRuntimeHeaders_spec (fun _ => .ok ()) 12 2).2.2.2.1
     (by decide)).trans (by rfl),
   (setupCudaRuntimeHeaders_spec (fun _ => .ok ()) 13 0).2.2.2.2
     (by decide) (by decide)⟩

end CupyReleaseTools
